import Mathlib

/-!
Verification of the p2p repository's bootstrap tracker, forwarder, peer table
and per-peer state machine against its natural-language specification.

The Go sources are shallowly embedded: each Lean definition mirrors one Go
function (the Go file and function are named in the doc comment).  Stateful
code becomes explicit state passing; machine integers become `Nat`; fallible
calls become `Option`.
-/

/- ### Tracker data model (p2p-cp/cp.go)

`Node` from cp.go: a node registered at the DHT bootstrap tracker.
`Addr` (the UDP address used to reach the node) always renders to the same
string as `ConnectionAddress`, so a single `connAddr` field models both. -/

structure TNode where
  id : String
  endpoint : String
  connAddr : String
  hash : String
  missedPing : Nat
  disabled : Bool
deriving DecidableEq

/-- `commons.DHTRequest` (the fields used by cp.go). -/
structure DHTRequest where
  command : String
  id : String
  hash : String
  port : String
deriving DecidableEq

/-- `commons.DHTResponse`. -/
structure DHTResponse where
  command : String
  id : String
  dest : String
deriving DecidableEq

/-- Loop body of `DHTRouter.ResponseFind` (cp.go:253-263): one step of the
accumulation `foundDest += node.Endpoint + ","` guarded by the hash match and
the requester-exclusion test. -/
def findStep (F addr : String) (acc : String) (n : TNode) : String :=
  if n.hash == F then
    (if n.connAddr == addr then acc else acc ++ n.endpoint ++ ",")
  else acc

/-- The `foundDest` string built by `DHTRouter.ResponseFind` (cp.go:251-263). -/
def responseFindDest (F addr : String) (l : List TNode) : String :=
  l.foldl (findStep F addr) ""

/-- The guard under which `ResponseFind` collects a node's endpoint:
matching associated hash and not the requesting connection address. -/
def matchesFind (F addr : String) (n : TNode) : Bool :=
  n.hash == F && !(n.connAddr == addr)

/-- The list of endpoints collected by `ResponseFind`, in node-list order. -/
def foundEndpoints (F addr : String) (l : List TNode) : List String :=
  (l.filter (matchesFind F addr)).map TNode.endpoint

/-- Rendering of an endpoint list the way `ResponseFind` renders `foundDest`:
every element followed by a comma. -/
def destOf (es : List String) : String :=
  es.foldr (fun e acc => e ++ "," ++ acc) ""

/-- `DHTRouter.RegisterHash` (cp.go:233-240). -/
def registerHash (addr h : String) (l : List TNode) : List TNode :=
  l.map (fun n => if n.connAddr == addr then { n with hash := h } else n)

/-- `DHTRouter.ResponseFind` (cp.go:246-273): returns the response and the
node list after the possible `RegisterHash` call. -/
def responseFind (req : DHTRequest) (addr : String) (l : List TNode) :
    DHTResponse × List TNode :=
  let dest := responseFindDest req.hash addr l
  let hashExists := l.any (fun n => n.hash == req.hash && n.connAddr == addr)
  let l' := if hashExists then l else registerHash addr req.hash l
  (⟨req.command, "0", dest⟩, l')

theorem strAppendAssoc (a b c : String) : a ++ b ++ c = a ++ (b ++ c) :=
  String.append_assoc a b c

theorem strAppendNil (a : String) : a ++ "" = a :=
  String.append_empty a

theorem destFoldAux (F addr : String) (l : List TNode) :
    ∀ acc : String, l.foldl (findStep F addr) acc = acc ++ destOf (foundEndpoints F addr l) := by
  induction l with
  | nil =>
    intro acc
    simp [destOf, foundEndpoints, strAppendNil]
  | cons n t ih =>
    intro acc
    simp only [List.foldl_cons]
    rw [ih]
    by_cases h1 : n.hash = F
    · by_cases h2 : n.connAddr = addr
      · simp [findStep, foundEndpoints, matchesFind, h1, h2]
      · simp [findStep, foundEndpoints, matchesFind, h1, h2, destOf, strAppendAssoc]
    · simp [findStep, foundEndpoints, matchesFind, h1]

/-- The string `foundDest` equals the comma rendering of the collected list. -/
theorem responseFindDest_eq (F addr : String) (l : List TNode) :
    responseFindDest F addr l = destOf (foundEndpoints F addr l) := by
  have h := destFoldAux F addr l ""
  simpa [responseFindDest] using h

/-- C1 counterexample: the tracker never deduplicates declared endpoints, so
registries where two matching nodes declare the same endpoint are reachable
(two source addresses, e.g. two ports of one host, each completing `conn`
with the same declared listen endpoint).  First registry: nodes u2 and u3,
both under hash F, both declaring 2.2.2.2:5000 — the requester's `find`
response contains that endpoint twice, not exactly once.  Second registry:
node u2 declares the requester's own endpoint 1.1.1.1:4000 — the response
contains the requester's own endpoint. -/
theorem C1_counterexample :
    (responseFind ⟨"find", "0", "F", "0"⟩ "9.9.9.9:777"
      [⟨"u1", "1.1.1.1:4000", "9.9.9.9:777", "F", 0, false⟩,
       ⟨"u2", "2.2.2.2:5000", "8.8.8.8:666", "F", 0, false⟩,
       ⟨"u3", "2.2.2.2:5000", "7.7.7.7:555", "F", 0, false⟩]).1.dest =
      "2.2.2.2:5000,2.2.2.2:5000," ∧
    (foundEndpoints "F" "9.9.9.9:777"
      [⟨"u1", "1.1.1.1:4000", "9.9.9.9:777", "F", 0, false⟩,
       ⟨"u2", "2.2.2.2:5000", "8.8.8.8:666", "F", 0, false⟩,
       ⟨"u3", "2.2.2.2:5000", "7.7.7.7:555", "F", 0, false⟩]).count "2.2.2.2:5000" = 2 ∧
    ((2 : Nat) ≠ 1) ∧
    ((⟨"u1", "1.1.1.1:4000", "9.9.9.9:777", "F", 0, false⟩ : TNode).endpoint
        = "1.1.1.1:4000" ∧
     ("1.1.1.1:4000" : String) ∈ foundEndpoints "F" "9.9.9.9:777"
      [⟨"u1", "1.1.1.1:4000", "9.9.9.9:777", "F", 0, false⟩,
       ⟨"u2", "1.1.1.1:4000", "8.8.8.8:666", "F", 0, false⟩]) := by
  refine ⟨rfl, by decide, by decide, rfl, by decide⟩

/-- C1 (amended): for a registered requester `r` (connection address `addr`),
the `find` response's `dest` is the comma rendering of the endpoints of
exactly the other nodes whose associated hash equals the requested hash, one
entry per such node in registration order; when the declared endpoints of
distinct matching nodes are distinct, each occurs exactly once, and when no
other node declares the requester's endpoint, the requester's own endpoint
never occurs.  (Without those side conditions — which the tracker does not
enforce — duplicates or the requester's own endpoint can appear, as the
counterexample shows.) -/
theorem C1_find_response (req : DHTRequest) (addr : String) (l : List TNode) (r : TNode)
    (hr : r ∈ l) (hra : r.connAddr = addr)
    (hnodup : (foundEndpoints req.hash addr l).Nodup)
    (hown : ∀ m ∈ l, m.connAddr ≠ addr → m.endpoint ≠ r.endpoint) :
    (responseFind req addr l).1.dest = destOf (foundEndpoints req.hash addr l) ∧
    (∀ m ∈ l, m.hash = req.hash → m.connAddr ≠ addr →
      (foundEndpoints req.hash addr l).count m.endpoint = 1) ∧
    r.endpoint ∉ foundEndpoints req.hash addr l := by
  refine ⟨responseFindDest_eq req.hash addr l, ?_, ?_⟩
  · intro m hm hmh hmc
    have hmem : m.endpoint ∈ foundEndpoints req.hash addr l := by
      apply List.mem_map_of_mem
      simp [List.mem_filter, matchesFind, hm, hmh, hmc]
    exact List.count_eq_one_of_mem hnodup hmem
  · intro hmem
    rcases List.mem_map.mp hmem with ⟨m, hm, hme⟩
    have hmf := List.mem_filter.mp hm
    have hmc : m.connAddr ≠ addr := by
      have := hmf.2
      simp [matchesFind] at this
      exact this.2
    exact hown m hmf.1 hmc hme

/-- Witness for C1 at a concrete two-node registry. -/
theorem C1_find_response_witness :
    (⟨"u1", "1.1.1.1:4000", "9.9.9.9:777", "F", 0, false⟩ : TNode) ∈
      [(⟨"u1", "1.1.1.1:4000", "9.9.9.9:777", "F", 0, false⟩ : TNode),
       ⟨"u2", "2.2.2.2:5000", "8.8.8.8:666", "F", 0, false⟩] ∧
    (responseFind ⟨"find", "0", "F", "0"⟩ "9.9.9.9:777"
      [⟨"u1", "1.1.1.1:4000", "9.9.9.9:777", "F", 0, false⟩,
       ⟨"u2", "2.2.2.2:5000", "8.8.8.8:666", "F", 0, false⟩]).1.dest =
      destOf (foundEndpoints "F" "9.9.9.9:777"
        [⟨"u1", "1.1.1.1:4000", "9.9.9.9:777", "F", 0, false⟩,
         ⟨"u2", "2.2.2.2:5000", "8.8.8.8:666", "F", 0, false⟩]) ∧
    ("1.1.1.1:4000" : String) ∉ foundEndpoints "F" "9.9.9.9:777"
      [⟨"u1", "1.1.1.1:4000", "9.9.9.9:777", "F", 0, false⟩,
       ⟨"u2", "2.2.2.2:5000", "8.8.8.8:666", "F", 0, false⟩] := by
  refine ⟨by decide, ?_, ?_⟩
  · exact (C1_find_response ⟨"find", "0", "F", "0"⟩ "9.9.9.9:777" _
      ⟨"u1", "1.1.1.1:4000", "9.9.9.9:777", "F", 0, false⟩
      (by decide) (by decide) (by decide) (by decide)).1
  · exact (C1_find_response ⟨"find", "0", "F", "0"⟩ "9.9.9.9:777" _
      ⟨"u1", "1.1.1.1:4000", "9.9.9.9:777", "F", 0, false⟩
      (by decide) (by decide) (by decide) (by decide)).2.2

/- ### Tracker ping loop (cp.go `DHTRouter.Ping` and the CMD_PING branch of `Listen`) -/

/-- Per-node action of one ping sweep (cp.go:431-438): increment `MissedPing`
and set `Disabled` when the incremented counter reaches the threshold 4. -/
def sweepOne (n : TNode) : TNode :=
  { n with missedPing := n.missedPing + 1,
           disabled := if 4 ≤ n.missedPing + 1 then true else n.disabled }

/-- The node list after the increment part of one ping sweep (cp.go:432). -/
def sweepInc (l : List TNode) : List TNode := l.map sweepOne

/-- The ping probes sent during one sweep (cp.go:433-434): one `ping` response
(built by `ResponsePing` from the request with command "ping") per node,
addressed to the node's connection address. -/
def pingProbes (l : List TNode) : List (String × DHTResponse) :=
  l.map (fun n => (n.connAddr, ⟨"ping", "0", "0"⟩))

/-- `removeKeys` collection of cp.go:435-437: indices (ascending from `i`, in
iteration order) of nodes whose counter is at or above the threshold 4. -/
def collectFrom : Nat → List TNode → List Nat
  | _, [] => []
  | i, n :: t =>
    if 4 ≤ n.missedPing then i :: collectFrom (i + 1) t else collectFrom (i + 1) t

/-- The keys collected during one sweep: indices into the incremented list. -/
def collectKeys (l : List TNode) : List Nat := collectFrom 0 (sweepInc l)

/-- cp.go:440 sorts `removeKeys` in descending order; the keys were collected
in ascending index order, so the descending sort is their reversal. -/
def sortDescKeys (ks : List Nat) : List Nat := ks.reverse

/-- The removal loop at the top of the `Ping` loop (cp.go:425-428):
`NodeList = append(NodeList[:i], NodeList[i+1:]...)` for each key in order. -/
def removeAll {α : Type} (ks : List Nat) (l : List α) : List α :=
  ks.foldl (fun acc i => acc.eraseIdx i) l

/-- One cycle of `DHTRouter.Ping` (cp.go:420-442), rotated to start at the
sweep: increment and probe every node, collect the indices that reached the
threshold, sort them descending and remove them.  (In the source the removal
happens at the top of the next loop iteration, which runs immediately after
the sweep and before the next 25-second sleep, so eviction belongs to the
cycle in which the threshold was crossed.) -/
def pingCycle (l : List TNode) : List TNode :=
  removeAll (sortDescKeys (collectKeys l)) (sweepInc l)

/-- The CMD_PING branch of `DHTRouter.Listen` (cp.go:381-387): reset
`MissedPing` of every node registered under the sender's address. -/
def processPing (addr : String) (l : List TNode) : List TNode :=
  l.map (fun n => if n.connAddr == addr then { n with missedPing := 0 } else n)

theorem collectFrom_append (a : TNode) :
    ∀ (l : List TNode) (i : Nat),
      collectFrom i (l ++ [a]) =
        collectFrom i l ++ (if 4 ≤ a.missedPing then [i + l.length] else []) := by
  intro l
  induction l with
  | nil =>
    intro i
    by_cases h : 4 ≤ a.missedPing <;> simp [collectFrom, h]
  | cons x t ih =>
    intro i
    have harith : i + 1 + t.length = i + (t.length + 1) := by omega
    by_cases h : 4 ≤ x.missedPing <;>
      simp [collectFrom, h, ih (i + 1), harith]

theorem collectFrom_lt :
    ∀ (l : List TNode) (i j : Nat), j ∈ collectFrom i l → j < i + l.length := by
  intro l
  induction l with
  | nil =>
    intro i j hj
    simp [collectFrom] at hj
  | cons x t ih =>
    intro i j hj
    simp only [List.length_cons]
    by_cases h : 4 ≤ x.missedPing
    · simp only [collectFrom, h, if_true, List.mem_cons] at hj
      rcases hj with rfl | hj
      · omega
      · have := ih (i + 1) j hj
        omega
    · simp only [collectFrom, h, if_false] at hj
      have := ih (i + 1) j hj
      omega

theorem collectFrom_ge :
    ∀ (l : List TNode) (i j : Nat), j ∈ collectFrom i l → i ≤ j := by
  intro l
  induction l with
  | nil =>
    intro i j hj
    simp [collectFrom] at hj
  | cons x t ih =>
    intro i j hj
    by_cases h : 4 ≤ x.missedPing
    · simp only [collectFrom, h, if_true, List.mem_cons] at hj
      rcases hj with rfl | hj
      · omega
      · have := ih (i + 1) j hj
        omega
    · simp only [collectFrom, h, if_false] at hj
      have := ih (i + 1) j hj
      omega

theorem collectFrom_pairwise :
    ∀ (l : List TNode) (i : Nat), (collectFrom i l).Pairwise (· < ·) := by
  intro l
  induction l with
  | nil =>
    intro i
    simp [collectFrom]
  | cons x t ih =>
    intro i
    by_cases h : 4 ≤ x.missedPing
    · simp only [collectFrom, h, if_true]
      refine List.Pairwise.cons ?_ (ih (i + 1))
      intro j hj
      have := collectFrom_ge t (i + 1) j hj
      omega
    · simp only [collectFrom, h, if_false]
      exact ih (i + 1)

theorem eraseIdxAppendLt {α : Type} :
    ∀ (l : List α) (a : α) (i : Nat), i < l.length →
      (l ++ [a]).eraseIdx i = l.eraseIdx i ++ [a] := by
  intro l
  induction l with
  | nil =>
    intro a i hi
    simp at hi
  | cons x t ih =>
    intro a i hi
    cases i with
    | zero => simp [List.eraseIdx]
    | succ j =>
      have hj : j < t.length := by simpa using hi
      show x :: (t ++ [a]).eraseIdx j = x :: (t.eraseIdx j ++ [a])
      rw [ih a j hj]

theorem eraseIdxAppendLen {α : Type} :
    ∀ (l : List α) (a : α), (l ++ [a]).eraseIdx l.length = l := by
  intro l
  induction l with
  | nil => intro a; rfl
  | cons x t ih =>
    intro a
    show x :: (t ++ [a]).eraseIdx t.length = x :: t
    rw [ih a]

theorem removeAll_append {α : Type} :
    ∀ (ks : List Nat) (l : List α) (a : α),
      (∀ i ∈ ks, i < l.length) → ks.Pairwise (· > ·) →
      removeAll ks (l ++ [a]) = removeAll ks l ++ [a] := by
  intro ks
  induction ks with
  | nil =>
    intro l a _ _
    rfl
  | cons k rest ih =>
    intro l a hb hp
    have hk : k < l.length := hb k (List.mem_cons_self k rest)
    have hlen : (l.eraseIdx k).length + 1 = l.length :=
      List.length_eraseIdx_add_one hk
    simp only [removeAll, List.foldl_cons]
    rw [eraseIdxAppendLt l a k hk]
    have hb' : ∀ i ∈ rest, i < (l.eraseIdx k).length := by
      intro i hi
      have : k > i := (List.pairwise_cons.mp hp).1 i hi
      omega
    exact ih (l.eraseIdx k) a hb' (List.pairwise_cons.mp hp).2

theorem removeCollected :
    ∀ l : List TNode,
      removeAll (sortDescKeys (collectFrom 0 l)) l =
        l.filter (fun n => !(decide (4 ≤ n.missedPing))) := by
  intro l
  induction l using List.reverseRecOn with
  | nil => rfl
  | append_singleton t a ih =>
    rw [collectFrom_append]
    by_cases h : 4 ≤ a.missedPing
    · simp only [h, if_true, sortDescKeys, List.reverse_append, List.reverse_cons,
        List.reverse_nil, List.nil_append, List.singleton_append, Nat.zero_add]
      have : removeAll (t.length :: (collectFrom 0 t).reverse) (t ++ [a]) =
          removeAll ((collectFrom 0 t).reverse) t := by
        simp only [removeAll, List.foldl_cons]
        rw [eraseIdxAppendLen t a]
      rw [this]
      rw [show removeAll ((collectFrom 0 t).reverse) t =
            removeAll (sortDescKeys (collectFrom 0 t)) t from rfl]
      rw [ih, List.filter_append]
      simp [h]
    · simp only [h, if_false, List.append_nil]
      have hb : ∀ i ∈ sortDescKeys (collectFrom 0 t), i < t.length := by
        intro i hi
        have := collectFrom_lt t 0 i (by simpa [sortDescKeys] using hi)
        omega
      have hp : (sortDescKeys (collectFrom 0 t)).Pairwise (· > ·) := by
        rw [sortDescKeys, List.pairwise_reverse]
        exact collectFrom_pairwise t 0
      rw [removeAll_append (sortDescKeys (collectFrom 0 t)) t a hb hp]
      rw [ih, List.filter_append]
      simp [h]

/-- `pingCycle` removes exactly the nodes whose incremented counter reached
the threshold. -/
theorem pingCycle_eq_filter (l : List TNode) :
    pingCycle l = (sweepInc l).filter (fun n => !(decide (4 ≤ n.missedPing))) :=
  removeCollected (sweepInc l)

theorem sweepInc_connAddr (l : List TNode) :
    (sweepInc l).map TNode.connAddr = l.map TNode.connAddr := by
  induction l with
  | nil => rfl
  | cons x t ih => simp [sweepInc, sweepOne] at ih ⊢

theorem sweepInc_mp (l : List TNode) (c : Nat) (h : ∀ n ∈ l, n.missedPing = c) :
    ∀ n ∈ sweepInc l, n.missedPing = c + 1 := by
  intro n hn
  rcases List.mem_map.mp hn with ⟨m, hm, rfl⟩
  simp [sweepOne, h m hm]

theorem pingCycle_keep (l : List TNode) (h : ∀ n ∈ sweepInc l, n.missedPing < 4) :
    pingCycle l = sweepInc l := by
  rw [pingCycle_eq_filter]
  apply List.filter_eq_self.mpr
  intro n hn
  simpa using Nat.not_le.mpr (h n hn)

theorem pingCycle_drop (l : List TNode) (h : ∀ n ∈ sweepInc l, 4 ≤ n.missedPing) :
    pingCycle l = [] := by
  rw [pingCycle_eq_filter]
  apply List.filter_eq_nil.mpr
  intro n hn
  simpa using h n hn

/-- C3: one ping cycle increments every node's missed-ping counter and sends
one `ping` probe per node; the keys of nodes that crossed the threshold are
deleted in descending index order; any node surviving a cycle has counter
below 4; starting from fresh counters, three silent cycles keep every node
while the fourth removes it, after which it no longer occurs in any `find`
response; and a `ping` received from an address resets that node's counter
to 0. -/
theorem C3_ping_eviction (l : List TNode) (F a : String)
    (h0 : ∀ n ∈ l, n.missedPing = 0) :
    (∀ l' : List TNode,
       (sweepInc l').map TNode.missedPing = l'.map (fun n => n.missedPing + 1)) ∧
    (∀ l' : List TNode, (pingProbes l').map Prod.fst = l'.map TNode.connAddr ∧
       ∀ p ∈ pingProbes l', p.2.command = "ping") ∧
    (∀ l' : List TNode, (sortDescKeys (collectKeys l')).Pairwise (· > ·)) ∧
    (∀ l' : List TNode, ∀ n ∈ pingCycle l', n.missedPing < 4) ∧
    ((pingCycle (pingCycle (pingCycle l))).map TNode.connAddr = l.map TNode.connAddr) ∧
    (pingCycle (pingCycle (pingCycle (pingCycle l))) = []) ∧
    (foundEndpoints F a (pingCycle (pingCycle (pingCycle (pingCycle l)))) = [] ∧
       responseFindDest F a (pingCycle (pingCycle (pingCycle (pingCycle l)))) = "") ∧
    (∀ (l' : List TNode) (n : TNode), n ∈ processPing a l' → n.connAddr = a →
       n.missedPing = 0) := by
  have hmp1 : ∀ n ∈ sweepInc l, n.missedPing = 1 := sweepInc_mp l 0 h0
  have hc1 : pingCycle l = sweepInc l :=
    pingCycle_keep l (fun n hn => by rw [hmp1 n hn]; omega)
  have hmp2 : ∀ n ∈ sweepInc (pingCycle l), n.missedPing = 2 := by
    rw [hc1]; exact sweepInc_mp _ 1 hmp1
  have hc2 : pingCycle (pingCycle l) = sweepInc (pingCycle l) :=
    pingCycle_keep _ (fun n hn => by rw [hmp2 n hn]; omega)
  have hmp3 : ∀ n ∈ sweepInc (pingCycle (pingCycle l)), n.missedPing = 3 := by
    rw [hc2]; exact sweepInc_mp _ 2 hmp2
  have hc3 : pingCycle (pingCycle (pingCycle l)) = sweepInc (pingCycle (pingCycle l)) :=
    pingCycle_keep _ (fun n hn => by rw [hmp3 n hn]; omega)
  have hmp4 : ∀ n ∈ sweepInc (pingCycle (pingCycle (pingCycle l))), n.missedPing = 4 := by
    rw [hc3]; exact sweepInc_mp _ 3 hmp3
  have hc4 : pingCycle (pingCycle (pingCycle (pingCycle l))) = [] :=
    pingCycle_drop _ (fun n hn => by rw [hmp4 n hn])
  refine ⟨?_, ?_, ?_, ?_, ?_, hc4, ?_, ?_⟩
  · intro l'
    simp [sweepInc, sweepOne, List.map_map]
  · intro l'
    constructor
    · simp [pingProbes, List.map_map]
    · intro p hp
      rcases List.mem_map.mp hp with ⟨m, _, rfl⟩
      rfl
  · intro l'
    rw [sortDescKeys, List.pairwise_reverse]
    exact collectFrom_pairwise (sweepInc l') 0
  · intro l' n hn
    rw [pingCycle_eq_filter] at hn
    have := (List.mem_filter.mp hn).2
    simp at this
    omega
  · rw [hc3, hc2, hc1]
    rw [sweepInc_connAddr, sweepInc_connAddr, sweepInc_connAddr]
  · rw [hc4]
    exact ⟨rfl, rfl⟩
  · intro l' n hn hna
    rcases List.mem_map.mp hn with ⟨m, hm, rfl⟩
    by_cases h : m.connAddr = a
    · simp [h]
    · simp [h] at hna

/-- Witness for C3 at a concrete two-node registry with fresh counters. -/
theorem C3_ping_eviction_witness :
    (∀ n ∈ [(⟨"u1", "e1", "a1", "F", 0, false⟩ : TNode),
            ⟨"u2", "e2", "a2", "F", 0, false⟩], n.missedPing = 0) ∧
    pingCycle (pingCycle (pingCycle (pingCycle
      [(⟨"u1", "e1", "a1", "F", 0, false⟩ : TNode),
       ⟨"u2", "e2", "a2", "F", 0, false⟩]))) = [] := by
  refine ⟨by decide, ?_⟩
  exact (C3_ping_eviction
    [(⟨"u1", "e1", "a1", "F", 0, false⟩ : TNode),
     ⟨"u2", "e2", "a2", "F", 0, false⟩] "F" "a1" (by decide)).2.2.2.2.2.1

/- ### Client peer table (ptp `PeerList`, source part_001)

`NetworkPeer` is reduced to the two fields the table synchronizes from:
`PeerLocalIP` (a `net.IP`, nil modelled as `none`) and `PeerHW`
(a `net.HardwareAddr`, nil modelled as `none`); `some s` carries the
rendered string.  The three Go maps become functions to `Option`. -/

structure RemotePeer where
  peerLocalIP : Option String
  peerHW : Option String
deriving DecidableEq

structure PeerList where
  peers : String → Option RemotePeer
  tableIPID : String → Option String
  tableMacID : String → Option String

/-- `PeerList.Init` (part_001:285-289): all three maps empty. -/
def peerListInit : PeerList :=
  ⟨fun _ => none, fun _ => none, fun _ => none⟩

def mapInsert {β : Type} (m : String → Option β) (k : String) (v : β) :
    String → Option β :=
  fun x => if x = k then some v else m x

def mapErase {β : Type} (m : String → Option β) (k : String) :
    String → Option β :=
  fun x => if x = k then none else m x

/-- The `ip` string computed in the update branch of `operate`
(part_001:296-303): `""` when `PeerLocalIP` is nil. -/
def ipStringUpd (p : RemotePeer) : String :=
  match p.peerLocalIP with
  | some s => s
  | none => ""

/-- The `mac` string of the update branch: `""` when `PeerHW` is nil. -/
def macStringUpd (p : RemotePeer) : String :=
  match p.peerHW with
  | some s => s
  | none => ""

/-- The string `peer.PeerLocalIP.String()` of the delete branch
(part_001:310): a nil `net.IP` renders as `"<nil>"`. -/
def ipStringDel (p : RemotePeer) : String :=
  match p.peerLocalIP with
  | some s => s
  | none => "<nil>"

/-- The string `peer.PeerHW.String()` of the delete branch: a nil
`net.HardwareAddr` renders as `""`. -/
def macStringDel (p : RemotePeer) : String :=
  match p.peerHW with
  | some s => s
  | none => ""

/-- `PeerList.updateTables` (part_001:316-323): add the two mappings when the
respective strings are non-empty; nothing is ever removed here. -/
def updateTables (l : PeerList) (id ip mac : String) : PeerList :=
  let l1 := if ip ≠ "" then { l with tableIPID := mapInsert l.tableIPID ip id } else l
  if mac ≠ "" then { l1 with tableMacID := mapInsert l1.tableMacID mac id } else l1

/-- `PeerList.deleteTables` (part_001:325-338). -/
def deleteTables (l : PeerList) (ip mac : String) : PeerList :=
  let l1 :=
    if ip ≠ "" then
      (if (l.tableIPID ip).isSome then { l with tableIPID := mapErase l.tableIPID ip } else l)
    else l
  if mac ≠ "" then
    (if (l1.tableMacID mac).isSome then { l1 with tableMacID := mapErase l1.tableMacID mac } else l1)
  else l1

/-- The `PeersUpdate` branch of `PeerList.operate` (part_001:294-304), the
body of `PeerList.Update` (upsert). -/
def operateUpdate (l : PeerList) (id : String) (p : RemotePeer) : PeerList :=
  let l1 := { l with peers := mapInsert l.peers id p }
  updateTables l1 id (ipStringUpd p) (macStringUpd p)

/-- The `PeersDelete` branch of `PeerList.operate` (part_001:305-313), the
body of `PeerList.Delete`. -/
def operateDelete (l : PeerList) (id : String) : PeerList :=
  match l.peers id with
  | none => l
  | some p =>
    let l1 := deleteTables l (ipStringDel p) (macStringDel p)
    { l1 with peers := mapErase l1.peers id }

/-- The peer table reached by upserting peer `p1` twice under id "p1", first
with overlay IP 10.0.0.1 and then with overlay IP 10.0.0.2. -/
def c4State : PeerList :=
  operateUpdate
    (operateUpdate peerListInit "p1" ⟨some "10.0.0.1", some "00:11:22:33:44:55"⟩)
    "p1" ⟨some "10.0.0.2", some "00:11:22:33:44:55"⟩

/-- C4 counterexample: after the second upsert under the same id changed the
peer's overlay IP from 10.0.0.1 to 10.0.0.2, the stale index entry
10.0.0.1 → "p1" is still present, although the stored peer's overlay IP is
10.0.0.2 — so `upsert` does not remove mappings that became stale under the
same id, and the IP → id index is not consistent with the primary store at
this observable point. -/
theorem C4_counterexample :
    c4State.tableIPID "10.0.0.1" = some "p1" ∧
    c4State.peers "p1" = some ⟨some "10.0.0.2", some "00:11:22:33:44:55"⟩ ∧
    (("10.0.0.2" : String) ≠ "10.0.0.1") := by
  refine ⟨?_, ?_, by decide⟩ <;> rfl

/-- C4 (amended): `upsert(id, peer)` installs/replaces the primary entry and
adds the IP → id and MAC → id mappings for the peer's non-empty overlay
fields; every other key of both secondary indexes is left untouched, so
mappings that became stale under the same id persist instead of being
removed. -/
theorem C4_upsert (l : PeerList) (id : String) (p : RemotePeer) :
    ((operateUpdate l id p).peers id = some p) ∧
    (∀ k, k ≠ id → (operateUpdate l id p).peers k = l.peers k) ∧
    (∀ ip, p.peerLocalIP = some ip → ip ≠ "" →
      (operateUpdate l id p).tableIPID ip = some id) ∧
    (∀ mac, p.peerHW = some mac → mac ≠ "" →
      (operateUpdate l id p).tableMacID mac = some id) ∧
    (∀ k, k ≠ ipStringUpd p → (operateUpdate l id p).tableIPID k = l.tableIPID k) ∧
    (∀ k, k ≠ macStringUpd p → (operateUpdate l id p).tableMacID k = l.tableMacID k) := by
  refine ⟨?_, ?_, ?_, ?_, ?_, ?_⟩
  · by_cases hip : ipStringUpd p = "" <;> by_cases hmac : macStringUpd p = "" <;>
      simp [operateUpdate, updateTables, mapInsert, hip, hmac]
  · intro k hk
    by_cases hip : ipStringUpd p = "" <;> by_cases hmac : macStringUpd p = "" <;>
      simp [operateUpdate, updateTables, mapInsert, hip, hmac, hk]
  · intro ip hip hne
    have hips : ipStringUpd p = ip := by simp [ipStringUpd, hip]
    by_cases hmac : macStringUpd p = "" <;>
      simp [operateUpdate, updateTables, mapInsert, hips, hne, hmac]
  · intro mac hmac hne
    have hmacs : macStringUpd p = mac := by simp [macStringUpd, hmac]
    by_cases hip : ipStringUpd p = "" <;>
      simp [operateUpdate, updateTables, mapInsert, hmacs, hne, hip]
  · intro k hk
    by_cases hip : ipStringUpd p = "" <;> by_cases hmac : macStringUpd p = "" <;>
      simp [operateUpdate, updateTables, mapInsert, hip, hmac, hk]
  · intro k hk
    by_cases hip : ipStringUpd p = "" <;> by_cases hmac : macStringUpd p = "" <;>
      simp [operateUpdate, updateTables, mapInsert, hip, hmac, hk]

/-- Witness for C4 at a concrete upsert into the empty table. -/
theorem C4_upsert_witness :
    ((⟨some "10.0.0.7", some "aa:bb"⟩ : RemotePeer).peerLocalIP = some "10.0.0.7") ∧
    (("10.0.0.7" : String) ≠ "") ∧
    (operateUpdate peerListInit "p9" ⟨some "10.0.0.7", some "aa:bb"⟩).tableIPID "10.0.0.7"
      = some "p9" :=
  ⟨rfl, by decide,
    (C4_upsert peerListInit "p9" ⟨some "10.0.0.7", some "aa:bb"⟩).2.2.1
      "10.0.0.7" rfl (by decide)⟩

/- ### Forwarder tunnel registry (cp.go, control-peer document: `Proxy.HandleMessage`, MT_PROXY branch)

A Go `*net.UDPAddr` is modelled as an allocation token (`ptr`) carrying the
rendered address value (`val`): `==` on two `*net.UDPAddr`s in Go compares
the pointers, i.e. the tokens, not the values.  `src_addr` (from
`ReadFromUDP`) and `targetIp` (from `ResolveUDPAddr`) are freshly allocated
for every received datagram, so their tokens differ from every stored one. -/

structure GoAddr where
  ptr : Nat
  val : String
deriving DecidableEq

/-- `Tunnel` of the control-peer document (Peer1/Peer2 are `*net.UDPAddr`). -/
structure Tunnel where
  peer1 : GoAddr
  peer2 : GoAddr
deriving DecidableEq

/-- The match test of the tunnel scan (HandleMessage): `tunnel.Peer1 == src_addr`
etc. are Go pointer comparisons, so only the tokens are compared. -/
def matchTunnel (t : Tunnel) (src tgt : GoAddr) : Bool :=
  if t.peer1.ptr == src.ptr then t.peer2.ptr == tgt.ptr
  else if t.peer2.ptr == src.ptr then t.peer1.ptr == tgt.ptr
  else false

/-- The scan over `p.Tunnels` setting `responseId` (initially -1); the map is
modelled as an association list in iteration order. -/
def scanTunnels (tunnels : List (Nat × Tunnel)) (src tgt : GoAddr) : Int :=
  tunnels.foldl
    (fun acc p => if matchTunnel p.2 src tgt then Int.ofNat p.1 else acc) (-1)

/-- The allocation loop `for i := 1; i < len(p.Tunnels)+2; i++`: the first id
not present among the keys; `none` when the loop runs out (cannot happen,
the range has more candidates than keys). -/
def scanFree (keys : List Nat) : Nat → Nat → Option Nat
  | 0, _ => none
  | fuel + 1, i => if keys.contains i then scanFree keys fuel (i + 1) else some i

/-- The MT_PROXY branch of `Proxy.HandleMessage`: reuse a (pointer-)matching
tunnel's id, otherwise create `{Peer1: src_addr, Peer2: targetIp}` under the
smallest free id; the returned `Int` is echoed to the sender in a PROXY
frame. -/
def handleProxy (tunnels : List (Nat × Tunnel)) (src tgt : GoAddr) :
    Int × List (Nat × Tunnel) :=
  let responseId := scanTunnels tunnels src tgt
  if responseId == -1 then
    match scanFree (tunnels.map Prod.fst) (tunnels.length + 1) 1 with
    | some i => (Int.ofNat i, tunnels ++ [(i, ⟨src, tgt⟩)])
    | none => (-1, tunnels)
  else (responseId, tunnels)

/-- C2: the reuse check compares pointers, not address values.  With tunnel 1
already holding the value pair (1.2.3.4:5000, 5.6.7.8:9000), a later PROXY
frame carrying exactly those values (under fresh pointer tokens, as every
received datagram does) does not get id 1 echoed back: a second tunnel with
id 2 is created for the same endpoint pair. -/
theorem C2_proxy_reuse_fails :
    (handleProxy [(1, ⟨⟨10, "1.2.3.4:5000"⟩, ⟨11, "5.6.7.8:9000"⟩⟩)]
        ⟨20, "1.2.3.4:5000"⟩ ⟨21, "5.6.7.8:9000"⟩).1 = 2 ∧
    (handleProxy [(1, ⟨⟨10, "1.2.3.4:5000"⟩, ⟨11, "5.6.7.8:9000"⟩⟩)]
        ⟨20, "1.2.3.4:5000"⟩ ⟨21, "5.6.7.8:9000"⟩).2 =
      [(1, ⟨⟨10, "1.2.3.4:5000"⟩, ⟨11, "5.6.7.8:9000"⟩⟩),
       (2, ⟨⟨20, "1.2.3.4:5000"⟩, ⟨21, "5.6.7.8:9000"⟩⟩)] ∧
    ((⟨⟨10, "1.2.3.4:5000"⟩, ⟨11, "5.6.7.8:9000"⟩⟩ : Tunnel).peer1.val
        = (⟨20, "1.2.3.4:5000"⟩ : GoAddr).val ∧
     (⟨⟨10, "1.2.3.4:5000"⟩, ⟨11, "5.6.7.8:9000"⟩⟩ : Tunnel).peer2.val
        = (⟨21, "5.6.7.8:9000"⟩ : GoAddr).val) ∧
    (2 : Int) ≠ 1 := by
  refine ⟨?_, ?_, ⟨rfl, rfl⟩, by decide⟩ <;> rfl

/- ### Tracker `conn` handling (cp.go `Listen` registration + `ResponseConn`)
and the client's CMD_CONN branch (dht source part_000, `ListenDHT`). -/

/-- A UDP source address as seen by the tracker, split into the parts
`ResponseConn` uses (`a1.IP` and the full rendered string). -/
structure UDPAddrM where
  ip : String
  port : String
deriving DecidableEq

def addrString (a : UDPAddrM) : String := a.ip ++ ":" ++ a.port

/-- `DHTRouter.IsNewPeer` (cp.go:153-161). -/
def isNewPeer (l : List TNode) (addr : String) : Bool :=
  l.all (fun n => !(n.connAddr == addr))

/-- The zero value of Go's `Node` struct: the `var n Node` of `Listen`
(cp.go:359), left untouched when the sender is already registered. -/
def zeroNode : TNode := ⟨"", "", "", "", 0, false⟩

/-- The registration step of `DHTRouter.Listen` (cp.go:360-368): a new sender
is appended with a freshly generated id and empty endpoint/hash; for a known
sender `n` stays the zero Node.  `fresh` stands for the id produced by
`GenerateID`. -/
def listenRegister (l : List TNode) (addr fresh : String) : List TNode × TNode :=
  if isNewPeer l addr then
    (l ++ [⟨fresh, "", addr, "", 0, false⟩], ⟨fresh, "", addr, "", 0, false⟩)
  else (l, zeroNode)

/-- `DHTRouter.ResponseConn` (cp.go:213-231): set the endpoint of every node
registered under the sender's connection address to `source-IP:port-from-message`
(the `net.ResolveUDPAddr` round-trip is modelled as the string concatenation
it performs for a well-formed port), and reply `conn` with `n.ID`. -/
def responseConn (req : DHTRequest) (source : UDPAddrM) (n : TNode)
    (l : List TNode) : DHTResponse × List TNode :=
  let ep := source.ip ++ ":" ++ req.port
  let l' := l.map (fun m =>
    if m.connAddr == addrString source then { m with endpoint := ep } else m)
  (⟨req.command, n.id, "0"⟩, l')

/-- The CMD_CONN path of `DHTRouter.Listen` (cp.go:352-377): register the
sender if new, then answer via `ResponseConn`. -/
def listenConn (l : List TNode) (source : UDPAddrM) (fresh : String)
    (req : DHTRequest) : DHTResponse × List TNode :=
  let r := listenRegister l (addrString source) fresh
  responseConn req source r.2 r.1

/-- The DHT client state used by the CMD_CONN branch of `ListenDHT`
(part_000:200-212). -/
structure DHTClientM where
  networkHash : String
  clientID : String
deriving DecidableEq

/-- `DHTClient.Compose` (part_000:110-124). -/
def composeReq (command id hash : String) : DHTRequest :=
  ⟨command, if id == "" then "0" else id, if hash == "" then "0" else hash, ""⟩

/-- The CMD_CONN branch of `DHTClient.ListenDHT` (part_000:200-212): store the
carried id as the client's own and send `find` with the network hash. -/
def clientHandleConn (c : DHTClientM) (respId : String) : DHTClientM × DHTRequest :=
  ({ c with clientID := respId }, composeReq "find" "" c.networkHash)

/-- C5 counterexample: a `conn` from a source that is already registered
(here 1.2.3.4:5000, registered under PeerId "u1") is answered with id `""`,
not with the node's registered PeerId: `Listen` only fills the local `Node`
variable for new senders, and `ResponseConn` copies its zero-value `ID`. -/
theorem C5_counterexample :
    (listenConn [⟨"u1", "1.2.3.4:4000", "1.2.3.4:5000", "", 0, false⟩]
        ⟨"1.2.3.4", "5000"⟩ "u9" ⟨"conn", "0", "0", "4000"⟩).1.id = "" ∧
    (⟨"u1", "1.2.3.4:4000", "1.2.3.4:5000", "", 0, false⟩ : TNode).connAddr
      = addrString ⟨"1.2.3.4", "5000"⟩ ∧
    (⟨"u1", "1.2.3.4:4000", "1.2.3.4:5000", "", 0, false⟩ : TNode).id = "u1" ∧
    ("" : String) ≠ "u1" := by
  refine ⟨rfl, rfl, rfl, by decide⟩

/-- C5 (amended): for a `conn` from a source that is not yet registered — the
normal handshake, a node's first packet — the tracker registers the node, sets
its declared endpoint to `source-IP:port-from-message` and replies `conn`
carrying the newly registered PeerId; a repeated `conn` from a registered
source still updates the endpoint but carries the zero Node's empty id.  On
receiving the `conn` reply, the client stores the carried id as its own and
immediately sends `find` with its network fingerprint. -/
theorem C5_conn_handshake (l : List TNode) (source : UDPAddrM)
    (fresh : String) (req : DHTRequest) (c : DHTClientM) (i : String)
    (hnew : isNewPeer l (addrString source) = true)
    (hhash : c.networkHash ≠ "") :
    ((listenConn l source fresh req).1.id = fresh) ∧
    ((listenConn l source fresh req).1.command = req.command) ∧
    ((listenConn l source fresh req).2 =
      l ++ [⟨fresh, source.ip ++ ":" ++ req.port, addrString source, "", 0, false⟩]) ∧
    ((clientHandleConn c i).1.clientID = i) ∧
    ((clientHandleConn c i).2.command = "find") ∧
    ((clientHandleConn c i).2.hash = c.networkHash) := by
  have hns : ∀ m ∈ l, (m.connAddr == addrString source) = false := by
    intro m hm
    have := (List.all_eq_true.mp hnew) m hm
    simpa using this
  refine ⟨?_, ?_, ?_, rfl, rfl, ?_⟩
  · simp [listenConn, listenRegister, hnew, responseConn]
  · simp [listenConn, listenRegister, hnew, responseConn]
  · simp only [listenConn, listenRegister, hnew, if_true, responseConn, List.map_append]
    have hl : l.map (fun m =>
        if m.connAddr == addrString source
        then { m with endpoint := source.ip ++ ":" ++ req.port } else m) = l := by
      refine (List.map_congr_left ?_).trans (List.map_id l)
      intro m hm
      simp [hns m hm]
    rw [hl]
    simp
  · simp [clientHandleConn, composeReq, hhash]

/-- Witness for C5 at a fresh source on an empty registry. -/
theorem C5_conn_handshake_witness :
    isNewPeer [] (addrString ⟨"5.5.5.5", "6000"⟩) = true ∧
    (("netX" : String) ≠ "") ∧
    (listenConn [] ⟨"5.5.5.5", "6000"⟩ "u7" ⟨"conn", "0", "0", "4000"⟩).1.id = "u7" ∧
    (clientHandleConn ⟨"netX", ""⟩ "u7").2.hash = "netX" :=
  ⟨by decide, by decide,
    (C5_conn_handshake [] ⟨"5.5.5.5", "6000"⟩ "u7" ⟨"conn", "0", "0", "4000"⟩
      ⟨"netX", ""⟩ "u7" (by decide) (by decide)).1,
    (C5_conn_handshake [] ⟨"5.5.5.5", "6000"⟩ "u7" ⟨"conn", "0", "0", "4000"⟩
      ⟨"netX", ""⟩ "u7" (by decide) (by decide)).2.2.2.2.2⟩

/- ### Peer state machine (ptp `NetworkPeer`, source part_003)

`PState` models the Go `PeerState` constants; the constructor names drop the
`PeerState` prefix of the source (`PState.routing` is `PeerStateRouting`,
`PState.stop` is `PeerStateStop`, and so on). -/

inductive PState where
  | init
  | requestedIP
  | connecting
  | connectingDirectlyWait
  | connectingDirectly
  | connectingInternetWait
  | connectingInternet
  | connected
  | handshaking
  | waitingForwarder
  | handshakingForwarder
  | handshakingFailed
  | disconnect
  | stop
  | requestingProxy
  | waitingForProxy
  | waitingToConnect
  | routing
deriving DecidableEq

/-- An element of `NetworkPeer.Endpoints` (part_003:14-17): address rendered
as a string, `LastContact` as a millisecond timestamp. -/
structure PeerEndpoint where
  addr : String
  lastContact : Nat
deriving DecidableEq

/-- The proxy membership test of `stateRouting` (part_003:703-709):
`proxy.String() == ep.Addr.String()` over `np.Proxies`. -/
def isProxyAddr (proxyList : List String) (ep : PeerEndpoint) : Bool :=
  proxyList.contains ep.addr

/-- Loop body of `NetworkPeer.stateRouting` (part_003:698-725).  `isPriv`
stands for `isPrivateIP`, whose body is not among the given sources; it is
kept as a parameter (`none` models its error return, which skips the entry).
`now - ep.lastContact` models `time.Since(ep.LastContact)`. -/
def routeStep (isPriv : String → Option Bool) (now : Nat) (proxyList : List String)
    (acc : List PeerEndpoint × List PeerEndpoint × List PeerEndpoint)
    (ep : PeerEndpoint) :
    List PeerEndpoint × List PeerEndpoint × List PeerEndpoint :=
  if now - ep.lastContact > 10 then acc
  else if isProxyAddr proxyList ep then (acc.1, acc.2.1, acc.2.2 ++ [ep])
  else
    match isPriv ep.addr with
    | none => acc
    | some true => (acc.1 ++ [ep], acc.2.1, acc.2.2)
    | some false => (acc.1, acc.2.1 ++ [ep], acc.2.2)

/-- The `locals` / `internet` / `proxies` accumulation of `stateRouting`. -/
def routeClassify (isPriv : String → Option Bool) (now : Nat)
    (proxyList : List String) (eps : List PeerEndpoint) :
    List PeerEndpoint × List PeerEndpoint × List PeerEndpoint :=
  eps.foldl (routeStep isPriv now proxyList) ([], [], [])

/-- `NetworkPeer.stateRouting` (part_003:694-737): returns the rewritten
`Endpoints` list, the (possibly unchanged) `Endpoint` field and the next
state. -/
def stateRouting (isPriv : String → Option Bool) (now : Nat)
    (proxyList : List String) (eps : List PeerEndpoint) (oldEp : Option String) :
    List PeerEndpoint × Option String × PState :=
  let b := routeClassify isPriv now proxyList eps
  match b.1 ++ b.2.1 ++ b.2.2 with
  | [] => (b.1 ++ b.2.1 ++ b.2.2, oldEp, PState.disconnect)
  | e :: t => (b.1 ++ b.2.1 ++ b.2.2, some e.addr, PState.connected)

/-- Specification-side bucket: recently-touched non-proxy entries whose
address is classified private. -/
def localBucket (isPriv : String → Option Bool) (now : Nat)
    (proxyList : List String) (eps : List PeerEndpoint) : List PeerEndpoint :=
  eps.filter (fun ep => !(decide (now - ep.lastContact > 10))
    && !(isProxyAddr proxyList ep) && decide (isPriv ep.addr = some true))

/-- Specification-side bucket: recently-touched non-proxy entries whose
address is classified public. -/
def wanBucket (isPriv : String → Option Bool) (now : Nat)
    (proxyList : List String) (eps : List PeerEndpoint) : List PeerEndpoint :=
  eps.filter (fun ep => !(decide (now - ep.lastContact > 10))
    && !(isProxyAddr proxyList ep) && decide (isPriv ep.addr = some false))

/-- Specification-side bucket: recently-touched proxy entries. -/
def proxyBucket (now : Nat) (proxyList : List String)
    (eps : List PeerEndpoint) : List PeerEndpoint :=
  eps.filter (fun ep => !(decide (now - ep.lastContact > 10))
    && isProxyAddr proxyList ep)

theorem routeClassifyAux (isPriv : String → Option Bool) (now : Nat)
    (proxyList : List String) :
    ∀ (eps : List PeerEndpoint)
      (acc : List PeerEndpoint × List PeerEndpoint × List PeerEndpoint),
      eps.foldl (routeStep isPriv now proxyList) acc =
        (acc.1 ++ localBucket isPriv now proxyList eps,
         acc.2.1 ++ wanBucket isPriv now proxyList eps,
         acc.2.2 ++ proxyBucket now proxyList eps) := by
  intro eps
  induction eps with
  | nil =>
    intro acc
    simp [localBucket, wanBucket, proxyBucket]
  | cons ep t ih =>
    intro acc
    simp only [List.foldl_cons]
    rw [ih]
    by_cases h1 : now - ep.lastContact > 10
    · simp [routeStep, localBucket, wanBucket, proxyBucket, h1]
    · by_cases h2 : isProxyAddr proxyList ep = true
      · simp [routeStep, localBucket, wanBucket, proxyBucket, h1, h2]
      · rcases hp : isPriv ep.addr with _ | b
        · simp [routeStep, localBucket, wanBucket, proxyBucket, h1, h2, hp]
        · cases b
          · simp [routeStep, localBucket, wanBucket, proxyBucket, h1, h2, hp]
          · simp [routeStep, localBucket, wanBucket, proxyBucket, h1, h2, hp]

/-- The classification pass equals the three spec-side filters. -/
theorem routeClassify_eq (isPriv : String → Option Bool) (now : Nat)
    (proxyList : List String) (eps : List PeerEndpoint) :
    routeClassify isPriv now proxyList eps =
      (localBucket isPriv now proxyList eps,
       wanBucket isPriv now proxyList eps,
       proxyBucket now proxyList eps) := by
  have h := routeClassifyAux isPriv now proxyList eps ([], [], [])
  simpa [routeClassify] using h

/-- Address classification for the C6 scenario.  Modelled from the spec:
`isPrivateIP` itself is not among the given sources; the spec only requires
that 192.168.x.x is private and the public address is not, which this
concrete classifier realizes. -/
def c6priv : String → Option Bool :=
  fun s => if s = "192.168.1.5:4000" then some true else some false

/-- C6: state Routing keeps only entries touched within the last 10 ms,
partitions them into the LAN, WAN and forwarder buckets, rewrites the
endpoint list as locals ++ internet ++ proxies, chooses the first entry and
goes to Connected when the result is non-empty and to Disconnect (leaving
the chosen endpoint unchanged) otherwise; with a recently-touched private IP,
public IP and proxy address the private IP becomes the chosen endpoint. -/
theorem C6_routing :
    (∀ (isPriv : String → Option Bool) (now : Nat) (proxyList : List String)
       (eps : List PeerEndpoint) (oldEp : Option String),
      stateRouting isPriv now proxyList eps oldEp =
        (localBucket isPriv now proxyList eps ++ wanBucket isPriv now proxyList eps
           ++ proxyBucket now proxyList eps,
         match localBucket isPriv now proxyList eps ++ wanBucket isPriv now proxyList eps
           ++ proxyBucket now proxyList eps with
         | [] => oldEp
         | e :: _ => some e.addr,
         match localBucket isPriv now proxyList eps ++ wanBucket isPriv now proxyList eps
           ++ proxyBucket now proxyList eps with
         | [] => PState.disconnect
         | _ :: _ => PState.connected)) ∧
    (stateRouting c6priv 5 ["77.7.7.7:9000"]
       [⟨"8.8.8.8:5000", 0⟩, ⟨"77.7.7.7:9000", 1⟩, ⟨"192.168.1.5:4000", 2⟩] none =
      ([⟨"192.168.1.5:4000", 2⟩, ⟨"8.8.8.8:5000", 0⟩, ⟨"77.7.7.7:9000", 1⟩],
       some "192.168.1.5:4000", PState.connected)) := by
  constructor
  · intro isPriv now proxyList eps oldEp
    rw [stateRouting, routeClassify_eq]
    dsimp only
    cases hL : localBucket isPriv now proxyList eps ++ wanBucket isPriv now proxyList eps
        ++ proxyBucket now proxyList eps with
    | nil => simp [hL]
    | cons e t => simp [hL]
  · decide

/- ### State RequestedIP (part_003 `NetworkPeer.stateRequestedIP`) -/

inductive ReqIPOutcome where
  | disconnect
  | requestingProxy
deriving DecidableEq

/-- The loop state of `stateRequestedIP` (part_003:143-170): the `attempts`
counter, the milliseconds since `requestSentAt`, the number of `node`
requests re-emitted so far, and the outcome once a `SetState` left the
loop. -/
structure ReqIPState where
  attempts : Nat
  sinceMs : Nat
  sends : Nat
  outcome : Option ReqIPOutcome
deriving DecidableEq

/-- `requestSentAt := time.Now(); attempts := 0` at entry. -/
def reqIPInit : ReqIPState := ⟨0, 0, 0, none⟩

/-- One iteration of the `stateRequestedIP` loop (part_003:148-168) with
`known` = `len(np.KnownIPs)` during the iteration: re-emit `node` when more
than 1000 ms passed since the last send (`sendNode` is modelled as
succeeding), then disconnect when `attempts > 5`, then leave for
RequestingProxy when endpoints are known, otherwise sleep 100 ms. -/
def reqIPStep (known : Nat) (s : ReqIPState) : ReqIPState :=
  match s.outcome with
  | some _ => s
  | none =>
    let s1 := if s.sinceMs > 1000
      then { s with attempts := s.attempts + 1, sinceMs := 0, sends := s.sends + 1 }
      else s
    if s1.attempts > 5 then { s1 with outcome := some ReqIPOutcome.disconnect }
    else if known > 0 then { s1 with outcome := some ReqIPOutcome.requestingProxy }
    else { s1 with sinceMs := s1.sinceMs + 100 }

/-- C7 counterexample: when no endpoints ever arrive, the loop leaves for
Disconnect at its 67th iteration, having re-emitted the `node` request six
times — not five: the loop only disconnects once the attempts counter
exceeds 5, i.e. on the sixth retry. -/
theorem C7_counterexample :
    ((reqIPStep 0)^[67] reqIPInit).outcome = some ReqIPOutcome.disconnect ∧
    ((reqIPStep 0)^[67] reqIPInit).sends = 6 ∧
    ((reqIPStep 0)^[66] reqIPInit).outcome = none ∧
    ((reqIPStep 0)^[66] reqIPInit).sends = 5 ∧
    (6 : Nat) ≠ 5 := by
  decide

/-- C7 (amended): in state RequestedIP the driver re-emits `node` roughly
once per second (every 11 sleeps of 100 ms); when the known-endpoints list
is non-empty an iteration leaves for RequestingProxy; and a peer whose
requests never yield endpoints leaves for Disconnect after exactly six
re-emitted `node` requests (the loop exits when `attempts > 5`). -/
theorem C7_requestedIP (k : Nat) (hk : 0 < k) :
    (((reqIPStep 0)^[67] reqIPInit).outcome = some ReqIPOutcome.disconnect ∧
     ((reqIPStep 0)^[67] reqIPInit).sends = 6 ∧
     (∀ m : Nat, m < 67 → ((reqIPStep 0)^[m] reqIPInit).outcome = none)) ∧
    reqIPStep k reqIPInit =
      { reqIPInit with outcome := some ReqIPOutcome.requestingProxy } := by
  constructor
  · refine ⟨by decide, by decide, ?_⟩
    decide
  · have : k > 0 := hk
    simp [reqIPStep, reqIPInit, Nat.pos_iff_ne_zero.mp this]

/-- Witness for C7 at `known` = 1. -/
theorem C7_requestedIP_witness :
    (0 : Nat) < 1 ∧
    reqIPStep 1 reqIPInit =
      { reqIPInit with outcome := some ReqIPOutcome.requestingProxy } :=
  ⟨by decide, (C7_requestedIP 1 (by decide)).2⟩

/- ### State Connecting (part_003 `NetworkPeer.stateConnecting`, new-states variant) -/

/-- The messages sent in one round of the background sender spawned by
`stateConnecting` (part_003:636-653): one INTRO_REQ frame per known endpoint
whose payload is `ptpc.Dht.ID + ep.String()`, as (destination, payload)
pairs. -/
def introRound (selfId : String) (known : List String) : List (String × String) :=
  known.map (fun ep => (ep, selfId ++ ep))

/-- The effect of one execution of the sender's loop body on the `round`
variable (part_003:637-652): the body sends and sleeps but never assigns
`round`, so the variable is returned unchanged. -/
def senderRoundStep (round : Nat) : Nat := round

/-- The state `stateConnecting` sets before returning (part_003:654):
`np.SetState(PeerStateRouting, ptpc)`. -/
def stateConnectingNext : PState := PState.routing

/-- C8: the driver does transition immediately to Routing and each round
sends `<our-id><target-endpoint>` payloads to every known endpoint, but the
background sender never terminates: its loop guard is `round < 10` and
`round`, starting at 0, is never incremented by the body, so after any
number of body executions the guard still holds. -/
theorem C8_sender_never_terminates :
    (∀ n : Nat, senderRoundStep^[n] 0 < 10) ∧
    (∀ (selfId : String) (known : List String),
      (introRound selfId known).map Prod.snd = known.map (fun ep => selfId ++ ep)) ∧
    stateConnectingNext = PState.routing := by
  refine ⟨?_, ?_, rfl⟩
  · intro n
    have h : senderRoundStep^[n] 0 = 0 := Function.iterate_fixed rfl n
    rw [h]
    omega
  · intro selfId known
    simp [introRound, List.map_map]

/- ### The per-peer driver loop (part_003 `NetworkPeer.Run`) -/

inductive RunAction where
  | exitLoop
  | sleepOnly
  | ranHandler
deriving DecidableEq

/-- One iteration of `NetworkPeer.Run`'s loop (part_003:68-109): leave the
loop when the state is Stop; otherwise, when the DHT client's id is still
empty, only sleep 500 ms (no handler table is built, no callback runs, the
state is untouched); otherwise run the registered handler for the current
state.  `handlers` stands for the callback table built on lines 77-96. -/
def runIteration (handlers : PState → PState) (s : PState) (dhtID : String) :
    RunAction × PState :=
  if s = PState.stop then (RunAction.exitLoop, s)
  else if dhtID = "" then (RunAction.sleepOnly, s)
  else (RunAction.ranHandler, handlers s)

/-- C10: while the DHT client's id is empty, an iteration of the driver loop
executes no state handler and leaves the state unchanged — unless the state
was externally set to Stop, in which case the loop exits; and a Stop state
exits the loop whatever the id is. -/
theorem C10_run_gate :
    (∀ (handlers : PState → PState) (s : PState),
      runIteration handlers s "" =
        if s = PState.stop then (RunAction.exitLoop, s) else (RunAction.sleepOnly, s)) ∧
    (∀ (handlers : PState → PState) (i : String),
      runIteration handlers PState.stop i = (RunAction.exitLoop, PState.stop)) := by
  constructor
  · intro handlers s
    by_cases h : s = PState.stop <;> simp [runIteration, h]
  · intro handlers i
    simp [runIteration]

/- ### Tracker id generation (cp.go `Node.GenerateID`) -/

/-- `Node.GenerateID` (cp.go:105-128): draw candidates from the UUID
generator (modelled as the stream `gen`, read from position `k`) and accept
the first one that does not occur among `hashes` — the `Infohash` strings of
`dht.Hashes`, which is the only collection the uniqueness check consults.
The Go recursion has no bound; `fuel` bounds the model, `""` standing for
the unreachable exhaustion case. -/
def generateID (fuel : Nat) (gen : Nat → String) (k : Nat)
    (hashes : List String) : String :=
  match fuel with
  | 0 => ""
  | fuel + 1 =>
    if hashes.contains (gen k) then generateID fuel gen (k + 1) hashes
    else gen k

/-- C9: `GenerateID` checks candidates only against `dht.Hashes` — which the
tracker never populates, so at the registration call site the check is
vacuous and the very first candidate is always accepted — and in particular
a candidate equal to the id of an already-registered node is returned
unchanged, giving two nodes the same PeerId. -/
theorem C9_generateID_collides :
    (∀ gen : Nat → String, generateID 3 gen 0 [] = gen 0) ∧
    generateID 3 (fun _ => "x") 0 [] = "x" ∧
    generateID 3 (fun _ => "x") 0 [] ∈
      [(⟨"x", "1.1.1.1:4000", "2.2.2.2:5000", "F", 0, false⟩ : TNode)].map TNode.id := by
  refine ⟨?_, rfl, by decide⟩
  intro gen
  rfl
